import Mathlib

/-!
# Verification of the CodeRunner hint engine core

Shallow embedding of `src/backend/app/analyzers/c_adapter.py` and
`src/backend/app/services/hint_engine.py` (together with the persistence
operations of `src/backend/app/db.py`, modelled as explicit state passing).

Python floats are modelled as exact rationals (`ℚ`); Python strings as Lean
`String` (a list of characters).  Python regular expressions used by the
classifier are alternations of literal runs separated by `.*` / character
classes; they are embedded by a small backtracking matcher over an atom
language that covers exactly the constructs appearing in the source.
-/

set_option autoImplicit false

/- Batteries marks the `Rat` field operations `@[irreducible]`, which keeps
`decide` from evaluating concrete rational arithmetic.  The embedding uses
exact rationals for Python floats throughout, so restore ordinary
reducibility for them: proofs below evaluate concrete engine runs with
`decide`. -/
set_option allowUnsafeReducibility true
attribute [semireducible] Rat.add Rat.sub Rat.mul Rat.inv Rat.div Rat.neg Rat.ofScientific

namespace CodeRunnerHint

/-! ## Small regex core

`re.search(pat, s, re.I | re.S)` in the source is applied to already
lower-cased text, and every pattern in the source is an alternation of
sequences of: literal runs, `.*` gaps (with `re.S`, `.` matches newline),
`\s*`-style starred character classes, and single class characters
(used to encode `\w+` as one class character followed by a starred class). -/

/-- One atom of a regex sequence: a literal run, a starred character class,
or a single character from a class. -/
inductive RAtom where
  | lit : List Char → RAtom
  | star : (Char → Bool) → RAtom
  | one : (Char → Bool) → RAtom

/-- Backtracking matcher: does the atom sequence match a prefix of `s`?
Structural recursion on a fuel bound so that the kernel can evaluate it;
every recursive call strictly decreases `rs.length + s.length`, so the
bound chosen in `matchSeq` below can never run out. -/
def matchSeqF : Nat → List RAtom → List Char → Bool
  | 0, _, _ => false
  | _ + 1, [], _ => true
  | f + 1, .lit l :: rs, s => l.isPrefixOf s && matchSeqF f rs (s.drop l.length)
  | f + 1, .star c :: rs, s =>
      matchSeqF f rs s ||
        (match s with
          | [] => false
          | ch :: t => c ch && matchSeqF f (.star c :: rs) t)
  | f + 1, .one c :: rs, s =>
      match s with
      | [] => false
      | ch :: t => c ch && matchSeqF f rs t

/-- Does the atom sequence match a prefix of `s`? -/
def matchSeq (rs : List RAtom) (s : List Char) : Bool :=
  matchSeqF (rs.length + s.length + 1) rs s

/-- `re.search` semantics: the sequence matches at some starting position. -/
def searchFrom (atoms : List RAtom) : List Char → Bool
  | [] => matchSeq atoms []
  | c :: t => matchSeq atoms (c :: t) || searchFrom atoms t

/-- A source pattern `alt1|alt2|...` is a list of alternative atom sequences. -/
def patSearch (alts : List (List RAtom)) (s : List Char) : Bool :=
  alts.any (fun a => searchFrom a s)

/-- Literal-run atom from a string. -/
def lit (s : String) : RAtom := .lit s.data

/-- `.*` under `re.S`: a gap over arbitrary characters. -/
def anyGap : RAtom := .star (fun _ => true)

/-- Python `\s` (over the texts the adapter sees, ordinary whitespace). -/
def isSpaceChar (c : Char) : Bool := c.isWhitespace

/-- Python `\w`. -/
def isWordChar (c : Char) : Bool := c.isAlphanum || c = '_'

/-! ## Request / response schemas (`src/backend/app/schemas.py`) -/

/-- `CodeRunnerPayload` of `schemas.py`. -/
structure CodeRunnerPayload where
  score : ℚ := 0
  max_score : ℚ := 1
  compile_error_text : String := ""
  runtime_error_text : String := ""
  failed_tests : List String := []
  full_feedback_text : String := ""
deriving DecidableEq

/-- `HintRequest` of `schemas.py` (the `plugin_meta` bag is unused by the core). -/
structure HintRequest where
  mode : String := "training"
  language : String := "c"
  course_id : Int := 0
  quiz_id : Int := 0
  question_id : Int := 0
  question_slot : Int := 0
  question_name : String := ""
  student_id : String := "anon"
  attempt_id : Int := 0
  attempt_no : Int := 0
  source_code : String := ""
  coderunner : CodeRunnerPayload
deriving DecidableEq

/-- `HintResponse` of `schemas.py`; `learning` is the optional pair
`(previous_hint_improved_score, previous_delta_score)`. -/
structure HintResponse where
  enabled : Bool := true
  hint_level : Int := 1
  hint_type : String := "generic"
  cluster_key : String := "c_generic"
  hint_text : String := ""
  confidence : ℚ := 0
  hint_variant : String := "default"
  learning : Option (Bool × ℚ) := none
deriving DecidableEq

/-! ## The classifier (`src/backend/app/analyzers/c_adapter.py`) -/

/-- Lower-cased character list of a string (Python `str.lower`). -/
def lowerChars (s : String) : List Char := s.data.map Char.toLower

/-- Python `str.lower` as a string. -/
def lowerStr (s : String) : String := ⟨lowerChars s⟩

/-- The needle occurs as a contiguous run starting at some position. -/
def subSearch (needle : List Char) : List Char → Bool
  | [] => needle.isPrefixOf []
  | c :: t => needle.isPrefixOf (c :: t) || subSearch needle t

/-- Substring test, Python `needle in hay`. -/
def containsSub (hay : List Char) (needle : String) : Bool :=
  subSearch needle.data hay

/-- One `(pattern, cluster, hint_type, confidence)` tuple of the adapter's
pattern tables. -/
structure Rule where
  pattern : List (List RAtom)
  cluster : String
  htype : String
  conf : ℚ

/-- `CAdapter.AnalysisResult.signals["code_features"]`
(`CAdapter._extract_code_features`). -/
structure CodeFeatures where
  uses_malloc : Bool
  uses_free : Bool
  null_check_after_malloc : Bool
  has_for_loop : Bool
  has_while_loop : Bool
  uses_array_index : Bool
  uses_pointer_deref : Bool
  uses_address_of : Bool
  line_count : Nat
deriving DecidableEq

/-- The `signals` dictionary built by `CAdapter.analyze`. -/
structure Signals where
  compile_patterns : List String
  runtime_patterns : List String
  failed_test_cues : List String
  code_features : CodeFeatures
  score_ratio : ℚ
deriving DecidableEq

/-- `AnalysisResult` of `c_adapter.py`. -/
structure AnalysisResult where
  language : String
  cluster_key : String
  hint_type : String
  confidence : ℚ
  signals : Signals
deriving DecidableEq

/-- `CAdapter._safe_ratio` (the `except` branch is unreachable over exact
rationals, where conversion and division are total). -/
def safeRatio (score max_score : ℚ) : ℚ :=
  if max_score ≤ 0 then 0 else max 0 (min 1 (score / max_score))

/-- The `null_check_after_malloc` regex
`if\s*\([^\)]*==\s*null|if\s*\([^\)]*!\s*\w+\)` (where `\w+` is one word
character followed by a starred word class). -/
def nullCheckPattern : List (List RAtom) :=
  [ [lit "if", .star isSpaceChar, lit "(", .star (fun c => c ≠ ')'),
     lit "==", .star isSpaceChar, lit "null"],
    [lit "if", .star isSpaceChar, lit "(", .star (fun c => c ≠ ')'),
     lit "!", .star isSpaceChar, .one isWordChar, .star isWordChar, lit ")"] ]

/-- `len(code.splitlines())` (with `\n` line terminators): one line per
terminator, plus an unterminated final line. -/
def lineCount (l : List Char) : Nat :=
  l.count '\n' + (if l ≠ [] ∧ l.getLast? ≠ some '\n' then 1 else 0)

/-- `CAdapter._extract_code_features`.  Note the source checks the loop
keywords against the *original-case* code but everything else against the
lower-cased code. -/
def extractCodeFeatures (code : String) : CodeFeatures :=
  let code_l := lowerChars code
  { uses_malloc := containsSub code_l "malloc("
    uses_free := containsSub code_l "free("
    null_check_after_malloc := patSearch nullCheckPattern code_l
    has_for_loop := containsSub code.data "for (" || containsSub code.data "for("
    has_while_loop := containsSub code.data "while (" || containsSub code.data "while("
    uses_array_index := containsSub code_l "[" && containsSub code_l "]"
    uses_pointer_deref := containsSub code_l "*"
    uses_address_of := containsSub code_l "&"
    line_count := lineCount code.data }

/-! ### Pattern tables

Each tuple of `CAdapter.RUNTIME_PATTERNS` / `CAdapter.COMPILE_PATTERNS` is a
named `Rule`.  Regexes are transcribed alternative by alternative; an
optional trailing group (`(?:\s+identifier)?` in the first compile pattern)
and a trailing `.*` never change whether `re.search` succeeds, and `X(?:A|B)Y`
is expanded into its two alternatives. -/

/-- `(r"segmentation fault|sigsegv", "c_segfault", "runtime_memory", 0.95)` -/
def rSegfault : Rule :=
  ⟨[[lit "segmentation fault"], [lit "sigsegv"]], "c_segfault", "runtime_memory", 0.95⟩

/-- `(r"addresssanitizer.*heap-use-after-free|use-after-free", "c_use_after_free", "memory", 0.98)` -/
def rUseAfterFree : Rule :=
  ⟨[[lit "addresssanitizer", anyGap, lit "heap-use-after-free"], [lit "use-after-free"]],
   "c_use_after_free", "memory", 0.98⟩

/-- `(r"addresssanitizer.*double-free|double free", "c_double_free", "memory", 0.98)` -/
def rDoubleFree : Rule :=
  ⟨[[lit "addresssanitizer", anyGap, lit "double-free"], [lit "double free"]],
   "c_double_free", "memory", 0.98⟩

/-- `(r"addresssanitizer.*invalid free|free\(\): invalid pointer", "c_invalid_free", "memory", 0.97)` -/
def rInvalidFree : Rule :=
  ⟨[[lit "addresssanitizer", anyGap, lit "invalid free"], [lit "free(): invalid pointer"]],
   "c_invalid_free", "memory", 0.97⟩

/-- `(r"stack-buffer-overflow|heap-buffer-overflow|out of bounds", "c_out_of_bounds", "bounds", 0.94)` -/
def rOutOfBounds : Rule :=
  ⟨[[lit "stack-buffer-overflow"], [lit "heap-buffer-overflow"], [lit "out of bounds"]],
   "c_out_of_bounds", "bounds", 0.94⟩

/-- `(r"null pointer|dereference of null|addresssanitizer.*null", "c_null_dereference", "pointers", 0.92)` -/
def rNullDeref : Rule :=
  ⟨[[lit "null pointer"], [lit "dereference of null"], [lit "addresssanitizer", anyGap, lit "null"]],
   "c_null_dereference", "pointers", 0.92⟩

/-- `CAdapter.RUNTIME_PATTERNS`. -/
def RUNTIME_PATTERNS : List Rule :=
  [rSegfault, rUseAfterFree, rDoubleFree, rInvalidFree, rOutOfBounds, rNullDeref]

/-- `(r"undeclared(?:\s+identifier)?|was not declared|implicit declaration", "c_undeclared_identifier", "compile_symbol", 0.92)` -/
def cUndeclared : Rule :=
  ⟨[[lit "undeclared"], [lit "was not declared"], [lit "implicit declaration"]],
   "c_undeclared_identifier", "compile_symbol", 0.92⟩

/-- `(r"conflicting types for|incompatible type|incompatible pointer type", "c_type_mismatch", "types", 0.9)` -/
def cTypeMismatch : Rule :=
  ⟨[[lit "conflicting types for"], [lit "incompatible type"], [lit "incompatible pointer type"]],
   "c_type_mismatch", "types", 0.9⟩

/-- `(r"too (?:few|many) arguments to function|passing argument .* from incompatible pointer type", "c_parameter_mismatch", "signature", 0.9)` -/
def cParamMismatch : Rule :=
  ⟨[[lit "too few arguments to function"], [lit "too many arguments to function"],
    [lit "passing argument ", anyGap, lit " from incompatible pointer type"]],
   "c_parameter_mismatch", "signature", 0.9⟩

/-- `(r"conflicting types for .*|previous declaration of .* with type", "c_prototype_conflict", "prototype", 0.9)` -/
def cProtoConflict : Rule :=
  ⟨[[lit "conflicting types for ", anyGap],
    [lit "previous declaration of ", anyGap, lit " with type"]],
   "c_prototype_conflict", "prototype", 0.9⟩

/-- `(r"return type .* is not compatible|return makes .* from .* without a cast", "c_return_type_mismatch", "return_type", 0.86)` -/
def cReturnMismatch : Rule :=
  ⟨[[lit "return type ", anyGap, lit " is not compatible"],
    [lit "return makes ", anyGap, lit " from ", anyGap, lit " without a cast"]],
   "c_return_type_mismatch", "return_type", 0.86⟩

/-- `(r"subscripted value is neither array nor pointer|invalid type argument of unary \*", "c_pointer_deref_misuse", "pointers", 0.88)` -/
def cDerefMisuse : Rule :=
  ⟨[[lit "subscripted value is neither array nor pointer"],
    [lit "invalid type argument of unary *"]],
   "c_pointer_deref_misuse", "pointers", 0.88⟩

/-- `(r"free\(|invalid conversion .*free", "c_free_misuse_compile", "memory", 0.76)` -/
def cFreeMisuse : Rule :=
  ⟨[[lit "free("], [lit "invalid conversion ", anyGap, lit "free"]],
   "c_free_misuse_compile", "memory", 0.76⟩

/-- `(r"warning: unused variable", "c_warning_unused_variable", "warning_unused", 0.55)` -/
def cWarnUnused : Rule :=
  ⟨[[lit "warning: unused variable"]], "c_warning_unused_variable", "warning_unused", 0.55⟩

/-- `CAdapter.COMPILE_PATTERNS`. -/
def COMPILE_PATTERNS : List Rule :=
  [cUndeclared, cTypeMismatch, cParamMismatch, cProtoConflict,
   cReturnMismatch, cDerefMisuse, cFreeMisuse, cWarnUnused]

/-! ### `CAdapter.analyze` -/

/-- `(compile_text + "\n" + full_text).lower()`. -/
def mergedCompile (req : HintRequest) : List Char :=
  lowerChars (req.coderunner.compile_error_text ++ "\n" ++ req.coderunner.full_feedback_text)

/-- `(runtime_text + "\n" + full_text).lower()`. -/
def mergedRuntime (req : HintRequest) : List Char :=
  lowerChars (req.coderunner.runtime_error_text ++ "\n" ++ req.coderunner.full_feedback_text)

/-- `"\n".join(failed_tests).lower()`. -/
def failedJoin (req : HintRequest) : List Char :=
  lowerChars (match req.coderunner.failed_tests with
    | [] => ""
    | t :: ts => ts.foldl (fun a b => a ++ "\n" ++ b) t)

/-- Steps 3–5 of `CAdapter.analyze`: failed-test lexical cues, the structural
fallback, and the terminal no-hint rule (reached directly, or after the
unused-variable-warning `break`). -/
def analyzeRest (failed_join : List Char) (signals : Signals) : AnalysisResult :=
  if failed_join ≠ [] ∧
      (containsSub failed_join "empty" || containsSub failed_join "vuoto" ||
       containsSub failed_join "n=0" || containsSub failed_join "zero") then
    ⟨"c", "c_logic_edge_case_empty", "edge_case", 0.8,
     { signals with failed_test_cues := ["edge_case_empty"] }⟩
  else if failed_join ≠ [] ∧
      (containsSub failed_join "single" || containsSub failed_join "uno" ||
       containsSub failed_join "1 elemento" || containsSub failed_join "one element") then
    ⟨"c", "c_logic_edge_case_single", "edge_case", 0.76,
     { signals with failed_test_cues := ["edge_case_single"] }⟩
  else if failed_join ≠ [] ∧
      (containsSub failed_join "format" || containsSub failed_join "output" ||
       containsSub failed_join "newline" || containsSub failed_join "spazio" ||
       containsSub failed_join "space") then
    ⟨"c", "c_output_format", "output_format", 0.75,
     { signals with failed_test_cues := ["output_format"] }⟩
  else if failed_join ≠ [] ∧
      (containsSub failed_join "bounds" || containsSub failed_join "index" ||
       containsSub failed_join "ultimo" || containsSub failed_join "last" ||
       containsSub failed_join "first") then
    ⟨"c", "c_logic_bounds_off_by_one", "bounds", 0.79,
     { signals with failed_test_cues := ["bounds"] }⟩
  else if signals.score_ratio < 0.99 then
    if signals.code_features.uses_free ∧ ¬signals.code_features.null_check_after_malloc ∧
        signals.code_features.uses_malloc then
      ⟨"c", "c_memory_malloc_no_null_check", "memory", 0.62, signals⟩
    else if signals.code_features.has_for_loop ∧ signals.code_features.uses_array_index then
      ⟨"c", "c_logic_loop_bounds_generic", "logic_loop", 0.58, signals⟩
    else
      ⟨"c", "c_logic_generic_failed_tests", "logic_generic", 0.45, signals⟩
  else
    ⟨"c", "c_no_hint_needed", "none", 0.2, signals⟩

/-- `CAdapter.analyze`.  Each pattern loop returns at its first matching rule,
so it is a `List.find?` over the rule table; the matched rule's cluster is
the one appended to the corresponding signal list before returning.  The
unused-variable special case `break`s out of the compile loop — since that
rule is last in the table, control then falls through to step 3. -/
def analyze (req : HintRequest) : AnalysisResult :=
  let signals0 : Signals :=
    { compile_patterns := []
      runtime_patterns := []
      failed_test_cues := []
      code_features := extractCodeFeatures req.source_code
      score_ratio := safeRatio req.coderunner.score req.coderunner.max_score }
  match RUNTIME_PATTERNS.find? (fun r => patSearch r.pattern (mergedRuntime req)) with
  | some r =>
      ⟨"c", r.cluster, r.htype, r.conf, { signals0 with runtime_patterns := [r.cluster] }⟩
  | none =>
    match COMPILE_PATTERNS.find? (fun r => patSearch r.pattern (mergedCompile req)) with
    | some r =>
        let s1 := { signals0 with compile_patterns := [r.cluster] }
        if r.cluster = "c_warning_unused_variable" ∧ signals0.score_ratio ≥ 0.99 then
          analyzeRest (failedJoin req) s1
        else
          ⟨"c", r.cluster, r.htype, r.conf, s1⟩
    | none => analyzeRest (failedJoin req) signals0

/-! ## Persistence model (`src/backend/app/db.py`)

The SQLite store is modelled as explicit state.  Nullable columns are
`Option`; Python truthiness (`x or d`, `if x`) treats `None`, `0`, `0.0`
and `""` as falsy, which the `floatOr` / `intOr` / `strOr` helpers mirror. -/

/-- Python `x or d` for float columns (`None` and `0.0` are falsy). -/
def floatOr (o : Option ℚ) (d : ℚ) : ℚ :=
  match o with
  | none => d
  | some v => if v = 0 then d else v

/-- Python `x or d` for integer columns (`None` and `0` are falsy). -/
def intOr (o : Option Int) (d : Int) : Int :=
  match o with
  | none => d
  | some v => if v = 0 then d else v

/-- Python `x or d` for text columns (`None` and `""` are falsy). -/
def strOr (o : Option String) (d : String) : String :=
  match o with
  | none => d
  | some v => if v = "" then d else v

/-- Python truthiness of an optional integer column. -/
def intTruthy (o : Option Int) : Bool :=
  match o with
  | none => false
  | some v => v ≠ 0

/-- Python truthiness of an optional text column. -/
def strTruthy (o : Option String) : Bool :=
  match o with
  | none => false
  | some v => v ≠ ""

/-- One row of the `attempts` table (`db.init_db`); `created_at` carries no
decision logic and is omitted. -/
structure AttemptRow where
  id : Nat
  mode : String
  language : String
  course_id : Int
  quiz_id : Int
  question_id : Int
  question_slot : Int
  question_name : String
  student_id : String
  attempt_id : Int
  attempt_no : Int
  source_code : String
  source_hash : String
  score : Option ℚ
  max_score : Option ℚ
  compile_error_text : String
  runtime_error_text : String
  failed_tests_json : List String
  full_feedback_text : String
  cluster_key : String
  hint_level : Option Int
  hint_type : String
  hint_variant : Option String
  hint_text : String
  confidence : ℚ
  improved_vs_previous : Option Bool
  delta_score : Option ℚ
deriving DecidableEq

/-- One row of the `hint_stats` table; the key columns are `NOT NULL`. -/
structure HintStatRow where
  language : String
  cluster_key : String
  hint_level : Int
  hint_variant : String
  exposures : Int
  improvements : Int
  total_delta : ℚ
deriving DecidableEq

/-- The store: the append-only `attempts` log (with the auto-increment
counter) and the `hint_stats` aggregates. -/
structure DbState where
  attempts : List AttemptRow
  nextId : Nat
  stats : List HintStatRow
deriving DecidableEq

/-- One persistence-collaborator call issued while handling a request,
recorded in order. -/
inductive DbEvent where
  | getLastAttempt (student_id language : String) (quiz_id question_id question_slot : Int)
  | updateImprovement (attempt_row_id : Nat) (improved : Bool) (delta_score : ℚ)
  | bumpStats (language cluster_key : String) (hint_level : Int) (hint_variant : String)
      (exposure_inc improvement_inc : Int) (delta_inc : ℚ)
  | getStats (language cluster_key : String) (hint_level : Int)
  | insertAttempt (row : AttemptRow)
deriving DecidableEq

/-- `db.get_last_attempt_for_context`: the matching row with the largest
`id` (`ORDER BY id DESC LIMIT 1`).  The request's context columns are
non-null integers here, so the SQL `COALESCE(…, 0)` is the identity. -/
def get_last_attempt_for_context (st : DbState) (student_id language : String)
    (quiz_id question_id question_slot : Int) : Option AttemptRow :=
  (st.attempts.filter (fun r =>
      r.student_id = student_id ∧ r.language = language ∧ r.quiz_id = quiz_id ∧
      r.question_id = question_id ∧ r.question_slot = question_slot)).foldl
    (fun acc r =>
      match acc with
      | none => some r
      | some a => if r.id > a.id then some r else some a)
    none

/-- `db.update_attempt_improvement`. -/
def update_attempt_improvement (st : DbState) (attempt_row_id : Nat)
    (improved : Bool) (delta_score : ℚ) : DbState :=
  { st with attempts := st.attempts.map (fun r =>
      if r.id = attempt_row_id then
        { r with improved_vs_previous := some improved, delta_score := some delta_score }
      else r) }

/-- Does a stats row have this `(language, cluster_key, hint_level, hint_variant)` key? -/
def statKeyMatch (language cluster_key : String) (hint_level : Int) (hint_variant : String)
    (r : HintStatRow) : Bool :=
  r.language = language ∧ r.cluster_key = cluster_key ∧
    r.hint_level = hint_level ∧ r.hint_variant = hint_variant

/-- `db.bump_hint_stats`: `INSERT … ON CONFLICT(key) DO UPDATE` with additive
increments. -/
def bump_hint_stats (st : DbState) (language cluster_key : String) (hint_level : Int)
    (hint_variant : String) (exposure_inc improvement_inc : Int) (delta_inc : ℚ) : DbState :=
  if st.stats.any (statKeyMatch language cluster_key hint_level hint_variant) then
    { st with stats := st.stats.map (fun r =>
        if statKeyMatch language cluster_key hint_level hint_variant r then
          { r with exposures := r.exposures + exposure_inc,
                   improvements := r.improvements + improvement_inc,
                   total_delta := r.total_delta + delta_inc }
        else r) }
  else
    { st with stats := st.stats ++
        [{ language := language, cluster_key := cluster_key, hint_level := hint_level,
           hint_variant := hint_variant, exposures := exposure_inc,
           improvements := improvement_inc, total_delta := delta_inc }] }

/-- `db.get_hint_stats`.  The SQL orders rows by exposures/improvements/delta
descending; the engine only folds the rows into a per-variant dictionary, so
the row order never influences a decision (the key is unique in SQLite) and
the filter keeps store order. -/
def get_hint_stats (st : DbState) (language cluster_key : String) (hint_level : Int) :
    List HintStatRow :=
  st.stats.filter (fun r =>
    r.language = language ∧ r.cluster_key = cluster_key ∧ r.hint_level = hint_level)

/-- `db.insert_attempt`: append with the auto-increment id. -/
def insert_attempt (st : DbState) (row : AttemptRow) : DbState :=
  { st with attempts := st.attempts ++ [{ row with id := st.nextId }],
            nextId := st.nextId + 1 }

/-! ## The hint engine (`src/backend/app/services/hint_engine.py`)

The JSON hint catalog is a language-indexed mapping
`cluster_key → {"variants": {variant_name → {level-as-key → text}}}`,
modelled as insertion-ordered association lists.  A JSON object's Python
truthiness (used by the `or` chains) is whether the object is non-empty;
for a cluster entry that may have keys other than `variants`, so it is
carried as a separate `truthy` field. -/

/-- The per-variant level texts `{level-as-key → text}` (keys are decimal
strings in the JSON file; they are carried as the integers they denote). -/
structure VariantTexts where
  levels : List (Int × String)
deriving DecidableEq

/-- One cluster entry `{"variants": …}`.  `truthy` is the Python truthiness
of the entry object itself. -/
structure CatalogEntry where
  variants : List (String × VariantTexts)
  truthy : Bool
deriving DecidableEq

/-- A per-language catalog; a missing catalog file loads as `[]`. -/
def Catalog : Type := List (String × CatalogEntry)

/-- Python `catalog.get(k)`. -/
def catalogGet (catalog : Catalog) (k : String) : Option CatalogEntry :=
  ((catalog : List (String × CatalogEntry)).find? (fun p => p.1 = k)).map (fun p => p.2)

/-- Python `a or b` on optional entries: `None` and a falsy (empty) entry
fall through. -/
def entryOr (a b : Option CatalogEntry) : Option CatalogEntry :=
  match a with
  | none => b
  | some e => if e.truthy then some e else b

/-- `HintEngine.epsilon`, the exploration rate. -/
def epsilon : ℚ := 0.15

/-- The hardcoded literal fallback text of `HintEngine._resolve_hint_text`. -/
def fallbackHintText : String :=
  "Controlla il primo test che fallisce e ripercorri il flusso con un input piccolo, concentrandoti su casi limite e gestione della memoria."

/-- The outcomes of the engine's random draws, passed in explicitly:
`random.random()` (a value in `[0,1)`) and the two possible
`random.choice` calls, each modelled as an arbitrary index reduced modulo
the list length. -/
structure Draws where
  explore_draw : ℚ
  explore_choice : Nat
  unseen_choice : Nat
deriving DecidableEq

/-- `random.choice(l)` with the draw supplied as an index. -/
def indexChoice (l : List String) (i : Nat) : String :=
  (l).getD (i % l.length) "default"

/-- The ratio computed by `HintEngine._decide_level` from the previous
attempt: `score / max_score` when `float(max_score or 0) > 0`, else `0.0`
(the guard makes the division's own `or 1` fallback unreachable; the
`except` branch cannot fire over exact rationals). -/
def prevRatio (prev : AttemptRow) : ℚ :=
  if floatOr prev.max_score 0 > 0 then floatOr prev.score 0 / floatOr prev.max_score 1
  else 0

/-- `HintEngine._decide_level`. -/
def decideLevel (previous : Option AttemptRow) : Int :=
  match previous with
  | none => 1
  | some prev =>
      if prevRatio prev ≥ 0.999 then 1
      else min 3 (max 1 (intOr prev.hint_level 1 + 1))

/-- Overwriting insert into the `score_by_variant` dictionary. -/
def setScore (m : List (String × ℚ)) (k : String) (v : ℚ) : List (String × ℚ) :=
  if m.any (fun p => p.1 = k) then m.map (fun p => if p.1 = k then (k, v) else p)
  else m ++ [(k, v)]

/-- The `score_by_variant` dictionary of `HintEngine._choose_variant`:
`(improvements + 1) / (exposures + 2) + 0.05 * total_delta / max(1, exposures)`
per stats row. -/
def buildScores (rows : List HintStatRow) : List (String × ℚ) :=
  rows.foldl (fun m r =>
    let rate : ℚ := ((r.improvements : ℚ) + 1) / ((r.exposures : ℚ) + 2)
    setScore m r.hint_variant (rate + 0.05 * r.total_delta / max 1 (r.exposures : ℚ))) []

/-- `score_by_variant.get(v, 0.0)`. -/
def scoreOf (m : List (String × ℚ)) (v : String) : ℚ :=
  match m.find? (fun p => p.1 = v) with
  | some p => p.2
  | none => 0

/-- The variant list of `HintEngine._choose_variant`:
`list((entry.get('variants') or {}).keys()) or ['default']`, with the
entry resolved by the `or` chain
`catalog.get(cluster_key) or catalog.get('c_logic_generic_failed_tests') or {}`. -/
def variantList (catalog : Catalog) (cluster_key : String) : List String :=
  let entry := entryOr (catalogGet catalog cluster_key)
    (catalogGet catalog "c_logic_generic_failed_tests")
  let vs := (match entry with
    | some e => e.variants.map (fun p => p.1)
    | none => [])
  if vs.isEmpty then ["default"] else vs

/-- `sorted(variants, key=score, reverse=True)[0]`: Python's sort is stable,
so this is the first variant (in catalog order) attaining the maximal
score.  The empty case is unreachable (the variant list is never empty). -/
def bestVariant (variants : List String) (f : String → ℚ) : String :=
  match variants with
  | [] => "default"
  | v :: vs => vs.foldl (fun best u => if f u > f best then u else best) v

/-- `HintEngine._choose_variant`, together with the persistence reads it
issues. -/
def chooseVariant (st : DbState) (language cluster_key : String) (hint_level : Int)
    (catalog : Catalog) (d : Draws) : String × List DbEvent :=
  let variants := variantList catalog cluster_key
  if variants.length = 1 then (variants.getD 0 "default", [])
  else if d.explore_draw < epsilon then (indexChoice variants d.explore_choice, [])
  else
    let rows := get_hint_stats st language cluster_key hint_level
    let score_by_variant := buildScores rows
    let unseen := variants.filter (fun v => ¬ score_by_variant.any (fun p => p.1 = v))
    if ¬ unseen.isEmpty then
      (indexChoice unseen d.unseen_choice, [.getStats language cluster_key hint_level])
    else
      (bestVariant variants (scoreOf score_by_variant),
       [.getStats language cluster_key hint_level])

/-- `chosen.get(str(level))` followed by the `if txt:` truthiness test. -/
def levelGetTruthy (chosen : List (Int × String)) (lvl : Int) : Option String :=
  match chosen.find? (fun p => p.1 = lvl) with
  | some p => if p.2 = "" then none else some p.2
  | none => none

/-- The `for level in range(hint_level, 0, -1)` fallback loop: the first
level in `n, n-1, …, 1` with truthy text. -/
def searchDown (chosen : List (Int × String)) : Nat → Option String
  | 0 => none
  | n + 1 =>
      match levelGetTruthy chosen ((n : Int) + 1) with
      | some t => some t
      | none => searchDown chosen n

/-- `HintEngine._resolve_hint_text`. -/
def resolveHintText (catalog : Catalog) (cluster_key : String) (hint_level : Int)
    (hint_variant : String) : String :=
  let fallback := (catalogGet catalog "c_logic_generic_failed_tests").getD ⟨[], false⟩
  let entry := (catalogGet catalog cluster_key).getD fallback
  let variants := entry.variants
  let chosen : Option (List (Int × String)) :=
    match variants.find? (fun p => p.1 = hint_variant) with
    | some p =>
        if p.2.levels.isEmpty then (variants.head?).map (fun q => q.2.levels)
        else some p.2.levels
    | none => (variants.head?).map (fun q => q.2.levels)
  match chosen with
  | none => fallbackHintText
  | some ch =>
      if ch.isEmpty then fallbackHintText
      else
        match levelGetTruthy ch hint_level with
        | some t => t
        | none =>
            match searchDown ch hint_level.toNat with
            | some t => t
            | none => fallbackHintText

/-- `round(q, n)` (exact model; the claims never exercise a half-way case,
where Python's float `round` banker-rounds). -/
def roundTo (n : Nat) (q : ℚ) : ℚ :=
  (round (q * 10 ^ n) : ℤ) / (10 ^ n : ℚ)

/-- Python `1e-9`, the improvement tolerance. -/
def improveTol : ℚ := 1 / 1000000000

/-- The feedback-learning block of `HintEngine.handle_hint` (lines 54–74):
runs only when the previous attempt exists and carries a truthy
`hint_variant` and `hint_level`; mutates the previous row, bumps the
improvement statistics, and yields the response's `learning` payload. -/
def feedbackStep (st : DbState) (previous : Option AttemptRow) (currscore : ℚ) :
    Option (Bool × ℚ) × DbState × List DbEvent :=
  match previous with
  | none => (none, st, [])
  | some prev =>
      if strTruthy prev.hint_variant ∧ intTruthy prev.hint_level then
        let prevscore := floatOr prev.score 0
        let delta := currscore - prevscore
        let improved := decide (delta > improveTol)
        let st1 := update_attempt_improvement st prev.id improved delta
        let ck := strOr (some prev.cluster_key) "unknown"
        let lvl := intOr prev.hint_level 1
        let v := strOr prev.hint_variant "default"
        let inc : Int := if improved then 1 else 0
        let st2 := bump_hint_stats st1 prev.language ck lvl v 0 inc delta
        (some (improved, roundTo 4 delta), st2,
         [.updateImprovement prev.id improved delta,
          .bumpStats prev.language ck lvl v 0 inc delta])
      else (none, st, [])

/-- The row dictionary passed to `db.insert_attempt` (the id is assigned by
the store). -/
def newAttemptRow (hashFn : String → String) (req : HintRequest) (language : String)
    (cluster_key : String) (hint_level : Int) (hint_type hint_variant hint_text : String)
    (confidence : ℚ) : AttemptRow :=
  { id := 0
    mode := req.mode
    language := language
    course_id := req.course_id
    quiz_id := req.quiz_id
    question_id := req.question_id
    question_slot := req.question_slot
    question_name := req.question_name
    student_id := req.student_id
    attempt_id := req.attempt_id
    attempt_no := req.attempt_no
    source_code := req.source_code
    source_hash := hashFn req.source_code
    score := some req.coderunner.score
    max_score := some req.coderunner.max_score
    compile_error_text := req.coderunner.compile_error_text
    runtime_error_text := req.coderunner.runtime_error_text
    failed_tests_json := req.coderunner.failed_tests
    full_feedback_text := req.coderunner.full_feedback_text
    cluster_key := cluster_key
    hint_level := some hint_level
    hint_type := hint_type
    hint_variant := some hint_variant
    hint_text := hint_text
    confidence := confidence
    improved_vs_previous := none
    delta_score := none }

/-- The fixed response of the non-training short circuit
(`HintResponse(enabled=False, hint_text='Hints disabled (exam mode).')`
with the schema defaults for the other fields). -/
def disabledResponse : HintResponse :=
  { enabled := false, hint_text := "Hints disabled (exam mode)." }

/-- The fixed generic response for unsupported languages. -/
def unsupportedResponse (language : String) : HintResponse :=
  { enabled := true
    hint_level := 1
    hint_type := "generic"
    cluster_key := language ++ "_unsupported_mvp"
    hint_text := "MVP attivo soprattutto per C. Per questo linguaggio posso dare solo un indizio generico: riparti dal primo test che fallisce e controlla casi limite e formato output."
    confidence := 0.25
    hint_variant := "default" }

/-- `HintEngine.handle_hint`.  The per-language catalog cache and the C
catalog file are external collaborators, passed in as `catalog`; the SHA-256
source hash is an external library call, passed in as `hashFn`; the shared
random source is passed in as `d`.  Returns the response, the store state
after the request, and the ordered persistence calls. -/
def handleHint (catalog : Catalog) (hashFn : String → String) (st : DbState)
    (req : HintRequest) (d : Draws) : HintResponse × DbState × List DbEvent :=
  if req.mode ≠ "training" then (disabledResponse, st, [])
  else
    let language := lowerStr (if req.language = "" then "c" else req.language)
    if language ≠ "c" then (unsupportedResponse language, st, [])
    else
      let analysis := analyze req
      let cluster_key := analysis.cluster_key
      let previous := get_last_attempt_for_context st req.student_id language
        req.quiz_id req.question_id req.question_slot
      let fb := feedbackStep st previous req.coderunner.score
      let st2 := fb.2.1
      let hint_level := decideLevel previous
      let cv := chooseVariant st2 language cluster_key hint_level catalog d
      let hint_variant := cv.1
      let hint_text := resolveHintText catalog cluster_key hint_level hint_variant
      let st3 := bump_hint_stats st2 language cluster_key hint_level hint_variant 1 0 0
      let row := newAttemptRow hashFn req language cluster_key hint_level
        analysis.hint_type hint_variant hint_text analysis.confidence
      let st4 := insert_attempt st3 row
      ({ enabled := true
         hint_level := hint_level
         hint_type := analysis.hint_type
         cluster_key := cluster_key
         hint_text := hint_text
         confidence := roundTo 3 analysis.confidence
         hint_variant := hint_variant
         learning := fb.1 },
       st4,
       [.getLastAttempt req.student_id language req.quiz_id req.question_id req.question_slot]
         ++ fb.2.2 ++ cv.2
         ++ [.bumpStats language cluster_key hint_level hint_variant 1 0 0,
             .insertAttempt row])

/-! ## Theorems -/

/-- C3: the hint-level decision: no previous attempt gives level 1; a
previous attempt whose score ratio is at least 0.999 gives level 1
regardless of its level; otherwise the new level is
`min 3 (max 1 (previous level + 1))` — monotone escalation capped at 3. -/
theorem decide_level_policy :
    decideLevel none = 1 ∧
    (∀ prev : AttemptRow, prevRatio prev ≥ 0.999 → decideLevel (some prev) = 1) ∧
    (∀ prev : AttemptRow, prevRatio prev < 0.999 →
      decideLevel (some prev) = min 3 (max 1 (intOr prev.hint_level 1 + 1))) := by
  refine ⟨rfl, ?_, ?_⟩
  · intro prev h
    simp [decideLevel, h]
  · intro prev h
    simp [decideLevel, not_le.mpr h]

/-- Previous attempt at level 2 with ratio 1/2 (used by the C3 witness). -/
def levelPrev (lvl : Int) : AttemptRow :=
  { id := 0, mode := "training", language := "c", course_id := 0, quiz_id := 0,
    question_id := 0, question_slot := 0, question_name := "", student_id := "s",
    attempt_id := 0, attempt_no := 0, source_code := "", source_hash := "",
    score := some 5, max_score := some 10, compile_error_text := "",
    runtime_error_text := "", failed_tests_json := [], full_feedback_text := "",
    cluster_key := "c_logic_generic_failed_tests", hint_level := some lvl,
    hint_type := "logic_generic", hint_variant := some "default", hint_text := "x",
    confidence := 0.45, improved_vs_previous := none, delta_score := none }

/-- Previous attempt with full score (ratio exactly 1). -/
def masteredPrev : AttemptRow :=
  { levelPrev 3 with score := some 10 }

/-- C3 witness: ratio exactly 1 resets to level 1 even from level 3; level 2
at ratio 1/2 escalates to 3; level 3 at ratio 1/2 stays capped at 3. -/
theorem decide_level_policy_witness :
    prevRatio masteredPrev ≥ 0.999 ∧ decideLevel (some masteredPrev) = 1 ∧
    prevRatio (levelPrev 2) < 0.999 ∧ decideLevel (some (levelPrev 2)) = 3 ∧
    prevRatio (levelPrev 3) < 0.999 ∧ decideLevel (some (levelPrev 3)) = 3 := by
  refine ⟨by decide, decide_level_policy.2.1 masteredPrev (by decide), by decide,
    (decide_level_policy.2.2 (levelPrev 2) (by decide)).trans (by decide), by decide,
    (decide_level_policy.2.2 (levelPrev 3) (by decide)).trans (by decide)⟩

/-- C7: when the resolved variant list has exactly one variant, the selector
returns that variant whatever the random draws are: the outcome is
independent of the randomness source, which is never consulted. -/
theorem single_variant_ignores_draws (st : DbState) (language cluster_key : String)
    (hint_level : Int) (catalog : Catalog) (d d' : Draws)
    (h : (variantList catalog cluster_key).length = 1) :
    (chooseVariant st language cluster_key hint_level catalog d).1 =
      (variantList catalog cluster_key).getD 0 "default" ∧
    (chooseVariant st language cluster_key hint_level catalog d).1 =
      (chooseVariant st language cluster_key hint_level catalog d').1 := by
  constructor
  · simp [chooseVariant, h]
  · simp [chooseVariant, h]

/-- Single-variant catalog for the C7 witness. -/
def singleVariantCatalog : Catalog :=
  [("c_segfault", { variants := [("only", ⟨[(1, "controlla i puntatori")]⟩)], truthy := true })]

/-- C7 witness: with one variant in the catalog entry, two draws that differ
in every component still select the same variant, `"only"`. -/
theorem single_variant_ignores_draws_witness :
    (variantList singleVariantCatalog "c_segfault").length = 1 ∧
    ((chooseVariant { attempts := [], nextId := 0, stats := [] } "c" "c_segfault" 1
        singleVariantCatalog { explore_draw := 0, explore_choice := 17, unseen_choice := 3 }).1 =
      (variantList singleVariantCatalog "c_segfault").getD 0 "default" ∧
     (chooseVariant { attempts := [], nextId := 0, stats := [] } "c" "c_segfault" 1
        singleVariantCatalog { explore_draw := 0, explore_choice := 17, unseen_choice := 3 }).1 =
      (chooseVariant { attempts := [], nextId := 0, stats := [] } "c" "c_segfault" 1
        singleVariantCatalog { explore_draw := 1/2, explore_choice := 0, unseen_choice := 0 }).1) ∧
    (chooseVariant { attempts := [], nextId := 0, stats := [] } "c" "c_segfault" 1
        singleVariantCatalog { explore_draw := 0, explore_choice := 17, unseen_choice := 3 }).1 = "only" := by
  refine ⟨by decide, single_variant_ignores_draws _ _ _ _ _ _ _ (by decide), by decide⟩

/-- C8: a request whose mode is not `"training"` short-circuits to the fixed
disabled response: the store is returned unchanged and no persistence call
(read or write) is issued. -/
theorem non_training_short_circuit (catalog : Catalog) (hashFn : String → String)
    (st : DbState) (req : HintRequest) (d : Draws) (h : req.mode ≠ "training") :
    handleHint catalog hashFn st req d = (disabledResponse, st, []) ∧
    disabledResponse.enabled = false := by
  exact ⟨by simp [handleHint, h], rfl⟩

/-- C8 witness: a concrete exam-mode request leaves a concrete non-empty
store untouched and yields the disabled response. -/
theorem non_training_short_circuit_witness :
    ("exam" : String) ≠ "training" ∧
    handleHint [] (fun _ => "") { attempts := [levelPrev 1], nextId := 1, stats := [] }
        { mode := "exam", coderunner := {} }
        { explore_draw := 0, explore_choice := 0, unseen_choice := 0 } =
      (disabledResponse, { attempts := [levelPrev 1], nextId := 1, stats := [] }, []) ∧
    disabledResponse.enabled = false := by
  refine ⟨by decide, ?_, ?_⟩
  · exact (non_training_short_circuit [] (fun _ => "")
      { attempts := [levelPrev 1], nextId := 1, stats := [] }
      { mode := "exam", coderunner := {} }
      { explore_draw := 0, explore_choice := 0, unseen_choice := 0 } (by decide)).1
  · exact rfl

/-- Text found by the truthiness-filtered level lookup is never empty. -/
theorem levelGetTruthy_ne_empty {chosen : List (Int × String)} {lvl : Int} {t : String}
    (h : levelGetTruthy chosen lvl = some t) : t ≠ "" := by
  unfold levelGetTruthy at h
  rcases hf : chosen.find? (fun p => p.1 = lvl) with _ | p
  · simp [hf] at h
  · rw [hf] at h
    by_cases hp : p.2 = ""
    · simp [hp] at h
    · simp [hp] at h
      exact h ▸ hp

/-- Text found by the downward level search is never empty. -/
theorem searchDown_ne_empty {chosen : List (Int × String)} {t : String} :
    ∀ {n : Nat}, searchDown chosen n = some t → t ≠ "" := by
  intro n
  induction n with
  | zero => intro h; simp [searchDown] at h
  | succ n ih =>
      intro h
      unfold searchDown at h
      rcases hg : levelGetTruthy chosen ((n : Int) + 1) with _ | u
      · rw [hg] at h
        exact ih h
      · rw [hg] at h
        cases h
        exact levelGetTruthy_ne_empty hg

/-- The hardcoded literal fallback is non-empty. -/
theorem fallbackHintText_ne_empty : fallbackHintText ≠ "" := by decide

/-- C6: hint-text resolution is total and never yields empty text, for every
catalog, cluster key, level and variant — the exact level is used when its
text is truthy, else the downward search from the level to 1, else the
hardcoded literal; and the empty catalog (a missing catalog file) always
yields the hardcoded literal. -/
theorem resolve_hint_text_total :
    (∀ (catalog : Catalog) (cluster_key : String) (hint_level : Int) (hint_variant : String),
      resolveHintText catalog cluster_key hint_level hint_variant ≠ "") ∧
    (∀ (cluster_key : String) (hint_level : Int) (hint_variant : String),
      resolveHintText [] cluster_key hint_level hint_variant = fallbackHintText) := by
  constructor
  · intro catalog cluster_key hint_level hint_variant
    simp only [resolveHintText]
    split
    · exact fallbackHintText_ne_empty
    · split
      · exact fallbackHintText_ne_empty
      · split
        · next t ht => exact levelGetTruthy_ne_empty ht
        · split
          · next u hu => exact searchDown_ne_empty hu
          · exact fallbackHintText_ne_empty
  · intro cluster_key hint_level hint_variant
    rfl

/-- C1: whenever the lower-cased runtime-plus-feedback text matches a
runtime-safety pattern, the classifier returns that (first-matching)
runtime rule's cluster, hint type and confidence — regardless of what the
compile-error text matches, since the runtime table is consulted first. -/
theorem runtime_priority_over_compile (req : HintRequest) (r : Rule)
    (h : RUNTIME_PATTERNS.find? (fun q => patSearch q.pattern (mergedRuntime req)) = some r) :
    (analyze req).cluster_key = r.cluster ∧
    (analyze req).hint_type = r.htype ∧
    (analyze req).confidence = r.conf := by
  simp [analyze, h]

/-- The C1 end-to-end request: runtime text with a use-after-free report,
compile text that matches the undeclared-identifier pattern. -/
def uafReq : HintRequest :=
  { coderunner :=
    { runtime_error_text := "AddressSanitizer: heap-use-after-free on address 0x602000000010"
      compile_error_text := "error: 'x' undeclared (first use in this function)"
      score := 0, max_score := 10 } }

/-- C1 witness: on `uafReq` the runtime table's first match is the
use-after-free rule, the compile table also matches (the undeclared rule),
and the classifier nevertheless returns `c_use_after_free` at confidence
0.98. -/
theorem runtime_priority_over_compile_witness :
    RUNTIME_PATTERNS.find? (fun q => patSearch q.pattern (mergedRuntime uafReq)) =
      some rUseAfterFree ∧
    COMPILE_PATTERNS.find? (fun q => patSearch q.pattern (mergedCompile uafReq)) =
      some cUndeclared ∧
    (analyze uafReq).cluster_key = "c_use_after_free" ∧
    (analyze uafReq).confidence = 0.98 := by
  have h := runtime_priority_over_compile uafReq rUseAfterFree rfl
  exact ⟨rfl, rfl, h.1, h.2.2⟩

/-- Every result of the classifier's steps 3–5 is one of eight fixed
(cluster, hint type, confidence) triples. -/
theorem analyzeRest_cases (failed_join : List Char) (signals : Signals) :
    (analyzeRest failed_join signals).language = "c" ∧
    ((analyzeRest failed_join signals).cluster_key,
     (analyzeRest failed_join signals).hint_type,
     (analyzeRest failed_join signals).confidence) ∈
      [("c_logic_edge_case_empty", "edge_case", (0.8 : ℚ)),
       ("c_logic_edge_case_single", "edge_case", 0.76),
       ("c_output_format", "output_format", 0.75),
       ("c_logic_bounds_off_by_one", "bounds", 0.79),
       ("c_memory_malloc_no_null_check", "memory", 0.62),
       ("c_logic_loop_bounds_generic", "logic_loop", 0.58),
       ("c_logic_generic_failed_tests", "logic_generic", 0.45),
       ("c_no_hint_needed", "none", 0.2)] := by
  unfold analyzeRest
  split
  · simp
  · split
    · simp
    · split
      · simp
      · split
        · simp
        · split
          · split
            · simp
            · split
              · simp
              · simp
          · simp

/-- The cascade's steps 3–5 never return the warning cluster. -/
theorem analyzeRest_ne_warning (failed_join : List Char) (signals : Signals) :
    (analyzeRest failed_join signals).cluster_key ≠ "c_warning_unused_variable" := by
  have h := (analyzeRest_cases failed_join signals).2
  intro hc
  simp only [List.mem_cons, List.not_mem_nil, or_false, Prod.mk.injEq] at h
  rcases h with h | h | h | h | h | h | h | h <;> rw [hc] at h <;> exact absurd h.1 (by decide)

/-- C5: when the unused-variable warning is the only matching pattern (no
runtime rule fires, and the warning rule — last in the compile table — is
the compile table's first match), the warning cluster is skipped and the
cascade continues exactly when score/max_score is at least 0.99; below
that threshold the classifier returns `c_warning_unused_variable` at
confidence 0.55. -/
theorem warning_suppression_threshold (req : HintRequest)
    (hr : RUNTIME_PATTERNS.find? (fun q => patSearch q.pattern (mergedRuntime req)) = none)
    (hc : COMPILE_PATTERNS.find? (fun q => patSearch q.pattern (mergedCompile req)) =
      some cWarnUnused) :
    (safeRatio req.coderunner.score req.coderunner.max_score ≥ 0.99 →
      (analyze req).cluster_key ≠ "c_warning_unused_variable") ∧
    (safeRatio req.coderunner.score req.coderunner.max_score < 0.99 →
      (analyze req).cluster_key = "c_warning_unused_variable" ∧
      (analyze req).confidence = 0.55) := by
  constructor
  · intro hge
    simp only [analyze, hr, hc]
    rw [if_pos ⟨rfl, hge⟩]
    exact analyzeRest_ne_warning _ _
  · intro hlt
    simp only [analyze, hr, hc]
    rw [if_neg (fun hand => absurd hand.2 (not_le.mpr hlt))]
    exact ⟨rfl, rfl⟩

/-- The C5 request at score ratio exactly 0.99. -/
def warnReqHigh : HintRequest :=
  { coderunner := { compile_error_text := "warning: unused variable 'tmp'"
                    score := 99, max_score := 100 } }

/-- The C5 request at score ratio 0.989999. -/
def warnReqLow : HintRequest :=
  { coderunner := { compile_error_text := "warning: unused variable 'tmp'"
                    score := 989999, max_score := 1000000 } }

/-- C5 witness: with only the warning pattern matching, ratio exactly 0.99
skips the warning cluster (the cascade ends at `c_no_hint_needed`), while
ratio 0.989999 returns the warning cluster at confidence 0.55. -/
theorem warning_suppression_threshold_witness :
    safeRatio warnReqHigh.coderunner.score warnReqHigh.coderunner.max_score ≥ 0.99 ∧
    (analyze warnReqHigh).cluster_key ≠ "c_warning_unused_variable" ∧
    (analyze warnReqHigh).cluster_key = "c_no_hint_needed" ∧
    safeRatio warnReqLow.coderunner.score warnReqLow.coderunner.max_score < 0.99 ∧
    (analyze warnReqLow).cluster_key = "c_warning_unused_variable" ∧
    (analyze warnReqLow).confidence = 0.55 := by
  have h1 := (warning_suppression_threshold warnReqHigh rfl rfl).1 (by decide)
  have h2 := (warning_suppression_threshold warnReqLow rfl rfl).2 (by decide)
  exact ⟨by decide, h1, by decide, by decide, h2.1, h2.2⟩

/-- The C10 range property, stated for one analysis result. -/
def ConfRange (a : AnalysisResult) : Prop :=
  a.language = "c" ∧
  (0.2 : ℚ) ≤ a.confidence ∧ a.confidence ≤ 0.98 ∧
  (a.confidence = 0.2 → a.cluster_key = "c_no_hint_needed") ∧
  (a.confidence = 0.98 →
    a.cluster_key = "c_use_after_free" ∨ a.cluster_key = "c_double_free")

/-- Steps 3–5 of the cascade satisfy the C10 range property. -/
theorem analyzeRest_conf_range (failed_join : List Char) (signals : Signals) :
    ConfRange (analyzeRest failed_join signals) := by
  obtain ⟨hl, hmem⟩ := analyzeRest_cases failed_join signals
  simp only [List.mem_cons, List.not_mem_nil, or_false, Prod.mk.injEq] at hmem
  unfold ConfRange
  rcases hmem with ⟨h1, h2, h3⟩ | ⟨h1, h2, h3⟩ | ⟨h1, h2, h3⟩ | ⟨h1, h2, h3⟩ |
    ⟨h1, h2, h3⟩ | ⟨h1, h2, h3⟩ | ⟨h1, h2, h3⟩ | ⟨h1, h2, h3⟩ <;>
    rw [h1, h3] <;>
    exact ⟨hl, by decide, by decide, by decide, by decide⟩

/-- C10: for every input the classifier reports language `"c"` and a
confidence from the fixed per-rule priors, hence within `[0.2, 0.98]`;
confidence 0.2 only comes from the terminal no-hint rule, and 0.98 only
from the use-after-free and double-free runtime memory rules. -/
theorem confidence_range_invariant (req : HintRequest) :
    ConfRange (analyze req) := by
  rcases hr : RUNTIME_PATTERNS.find? (fun q => patSearch q.pattern (mergedRuntime req)) with _ | r
  · rcases hcm : COMPILE_PATTERNS.find? (fun q => patSearch q.pattern (mergedCompile req)) with _ | c
    · simp only [analyze, hr, hcm]
      exact analyzeRest_conf_range _ _
    · have hmem := List.mem_of_find?_eq_some hcm
      simp only [COMPILE_PATTERNS, List.mem_cons, List.not_mem_nil, or_false] at hmem
      simp only [analyze, hr, hcm]
      unfold ConfRange
      rcases hmem with h | h | h | h | h | h | h | h <;> subst h <;> split
      all_goals
        first
          | exact analyzeRest_conf_range _ _
          | (refine ⟨rfl, ?_, ?_, ?_, ?_⟩ <;> dsimp only <;> decide)
  · have hmem := List.mem_of_find?_eq_some hr
    simp only [RUNTIME_PATTERNS, List.mem_cons, List.not_mem_nil, or_false] at hmem
    simp only [analyze, hr]
    unfold ConfRange
    rcases hmem with h | h | h | h | h | h <;> subst h <;>
      (refine ⟨rfl, ?_, ?_, ?_, ?_⟩ <;> dsimp only <;> decide)

/-- C10 witness: a blank full-score request ends in the terminal rule, whose
confidence 0.2 pins the no-hint cluster through the invariant. -/
theorem confidence_range_invariant_witness :
    (analyze { coderunner := { score := 1, max_score := 1 } }).confidence = 0.2 ∧
    (analyze { coderunner := { score := 1, max_score := 1 } }).cluster_key = "c_no_hint_needed" := by
  exact ⟨by decide,
    (confidence_range_invariant { coderunner := { score := 1, max_score := 1 } }).2.2.2.1 (by decide)⟩

/-- The maximum-selecting fold of `bestVariant` returns either its initial
value (when nothing in the list beats it) or the first list element
attaining the maximal score: everything before it scores strictly less,
everything after it scores no more. -/
theorem foldBest_spec (f : String → ℚ) :
    ∀ (vs : List String) (v r : String),
      vs.foldl (fun best u => if f u > f best then u else best) v = r →
      (r = v ∧ ∀ u ∈ vs, f u ≤ f v) ∨
      (f v < f r ∧ ∃ pre post, vs = pre ++ r :: post ∧
        (∀ u ∈ pre, f u < f r) ∧ (∀ u ∈ post, f u ≤ f r)) := by
  intro vs
  induction vs with
  | nil =>
      intro v r h
      exact Or.inl ⟨h.symm, by simp⟩
  | cons u vs ih =>
      intro v r h
      rw [List.foldl_cons] at h
      by_cases hc : f u > f v
      · rw [if_pos hc] at h
        rcases ih u r h with ⟨hru, hall⟩ | ⟨hlt, pre, post, heq, hpre, hpost⟩
        · right
          refine ⟨by rw [hru]; exact hc, [], vs, by simp [hru], by simp, ?_⟩
          rw [hru]
          exact hall
        · right
          refine ⟨lt_trans hc hlt, u :: pre, post, by simp [heq], fun w hw => ?_, hpost⟩
          rcases List.mem_cons.mp hw with hw | hw
          · exact hw ▸ hlt
          · exact hpre w hw
      · rw [if_neg hc] at h
        rcases ih v r h with ⟨hrv, hall⟩ | ⟨hlt, pre, post, heq, hpre, hpost⟩
        · left
          refine ⟨hrv, fun w hw => ?_⟩
          rcases List.mem_cons.mp hw with hw | hw
          · exact hw ▸ le_of_not_lt hc
          · exact hall w hw
        · right
          refine ⟨hlt, u :: pre, post, by simp [heq], fun w hw => ?_, hpost⟩
          rcases List.mem_cons.mp hw with hw | hw
          · exact hw ▸ lt_of_le_of_lt (le_of_not_lt hc) hlt
          · exact hpre w hw

/-- The resolved variant list is never empty. -/
theorem variantList_ne_nil (catalog : Catalog) (cluster_key : String) :
    variantList catalog cluster_key ≠ [] := by
  simp only [variantList]
  split
  · exact fun h => List.cons_ne_nil _ _ h
  · next hne => simpa [List.isEmpty_iff] using hne

/-- C4: in the exploitation branch (the variant list has more than one
entry, the exploration draw does not fall below epsilon, and no variant is
unseen), `_choose_variant` returns a variant from the list whose score
`(improvements+1)/(exposures+2) + 0.05·total_delta/max(1,exposures)` is
maximal, and on ties the one earliest in catalog order: every variant
before the returned one scores strictly less. -/
theorem exploit_picks_highest_score (st : DbState) (language cluster_key : String)
    (hint_level : Int) (catalog : Catalog) (d : Draws)
    (hlen : (variantList catalog cluster_key).length ≠ 1)
    (hdraw : ¬ d.explore_draw < epsilon)
    (hunseen : (variantList catalog cluster_key).filter
      (fun v => ¬ (buildScores (get_hint_stats st language cluster_key hint_level)).any
        (fun p => p.1 = v)) = []) :
    (chooseVariant st language cluster_key hint_level catalog d).1 ∈
      variantList catalog cluster_key ∧
    (∀ v ∈ variantList catalog cluster_key,
      scoreOf (buildScores (get_hint_stats st language cluster_key hint_level)) v ≤
        scoreOf (buildScores (get_hint_stats st language cluster_key hint_level))
          ((chooseVariant st language cluster_key hint_level catalog d).1)) ∧
    (∃ pre post, variantList catalog cluster_key =
        pre ++ (chooseVariant st language cluster_key hint_level catalog d).1 :: post ∧
      ∀ v ∈ pre,
        scoreOf (buildScores (get_hint_stats st language cluster_key hint_level)) v <
          scoreOf (buildScores (get_hint_stats st language cluster_key hint_level))
            ((chooseVariant st language cluster_key hint_level catalog d).1)) := by
  have hch : (chooseVariant st language cluster_key hint_level catalog d).1 =
      bestVariant (variantList catalog cluster_key)
        (scoreOf (buildScores (get_hint_stats st language cluster_key hint_level))) := by
    unfold chooseVariant
    rw [if_neg hlen, if_neg hdraw]
    simp only [hunseen, List.isEmpty_nil, not_true_eq_false, Bool.false_eq_true,
      not_false_eq_true, ite_false, if_neg]
  rcases hvl : variantList catalog cluster_key with _ | ⟨v, vs⟩
  · exact absurd hvl (variantList_ne_nil catalog cluster_key)
  · set f := scoreOf (buildScores (get_hint_stats st language cluster_key hint_level)) with hf
    set chosen := (chooseVariant st language cluster_key hint_level catalog d).1 with hcdef
    have hbv : vs.foldl (fun best u => if f u > f best then u else best) v = chosen := by
      rw [hch, hvl]; rfl
    rcases foldBest_spec f vs v chosen hbv with ⟨hr, hall⟩ | ⟨hlt, pre, post, heq, hpre, hpost⟩
    · subst hr
      refine ⟨List.mem_cons_self chosen vs, fun w hw => ?_, [], vs, rfl, by simp⟩
      rcases List.mem_cons.mp hw with hw | hw
      · exact hw ▸ le_refl _
      · exact hall w hw
    · refine ⟨?_, fun w hw => ?_, v :: pre, post, by simp [heq], fun w hw => ?_⟩
      · exact List.mem_cons_of_mem v
          (heq ▸ List.mem_append_right pre (List.mem_cons_self chosen post))
      · rcases List.mem_cons.mp hw with hw | hw
        · exact hw ▸ le_of_lt hlt
        · rw [heq] at hw
          rcases List.mem_append.mp hw with hw | hw
          · exact le_of_lt (hpre w hw)
          · rcases List.mem_cons.mp hw with hw | hw
            · exact hw ▸ le_refl _
            · exact hpost w hw
      · rcases List.mem_cons.mp hw with hw | hw
        · exact hw ▸ hlt
        · exact hpre w hw

/-- The stats of the C4 witness: variant A improved 9 of 10 exposures,
variant B 1 of 10. -/
def statsAB : List HintStatRow :=
  [ { language := "c", cluster_key := "c_segfault", hint_level := 1, hint_variant := "A",
      exposures := 10, improvements := 9, total_delta := 9 },
    { language := "c", cluster_key := "c_segfault", hint_level := 1, hint_variant := "B",
      exposures := 10, improvements := 1, total_delta := 1 } ]

/-- The two-variant catalog of the C4 witness. -/
def catalogAB : Catalog :=
  [("c_segfault",
    { variants := [("A", ⟨[(1, "testo a")]⟩), ("B", ⟨[(1, "testo b")]⟩)], truthy := true })]

/-- C4 witness: with exposures 10/10, improvements 9/1 and deltas 9/1, the
exploitation branch (draw 1/2, no unseen variants) selects variant A. -/
theorem exploit_picks_highest_score_witness :
    (variantList catalogAB "c_segfault").length ≠ 1 ∧
    ¬ (1 / 2 : ℚ) < epsilon ∧
    ((chooseVariant { attempts := [], nextId := 0, stats := statsAB } "c" "c_segfault" 1
        catalogAB { explore_draw := 1/2, explore_choice := 0, unseen_choice := 0 }).1 ∈
      variantList catalogAB "c_segfault" ∧
     (∀ v ∈ variantList catalogAB "c_segfault",
        scoreOf (buildScores (get_hint_stats { attempts := [], nextId := 0, stats := statsAB }
            "c" "c_segfault" 1)) v ≤
          scoreOf (buildScores (get_hint_stats { attempts := [], nextId := 0, stats := statsAB }
              "c" "c_segfault" 1))
            ((chooseVariant { attempts := [], nextId := 0, stats := statsAB } "c" "c_segfault" 1
                catalogAB { explore_draw := 1/2, explore_choice := 0, unseen_choice := 0 }).1))) ∧
    (chooseVariant { attempts := [], nextId := 0, stats := statsAB } "c" "c_segfault" 1
        catalogAB { explore_draw := 1/2, explore_choice := 0, unseen_choice := 0 }).1 = "A" := by
  have h := exploit_picks_highest_score { attempts := [], nextId := 0, stats := statsAB }
    "c" "c_segfault" 1 catalogAB { explore_draw := 1/2, explore_choice := 0, unseen_choice := 0 }
    (by decide) (by decide) (by decide)
  exact ⟨by decide, by decide, ⟨h.1, h.2.1⟩, by decide⟩

/-- Bumping statistics never touches the attempts log. -/
theorem bump_hint_stats_attempts (st : DbState) (language cluster_key : String)
    (hint_level : Int) (hint_variant : String) (e i : Int) (dl : ℚ) :
    (bump_hint_stats st language cluster_key hint_level hint_variant e i dl).attempts =
      st.attempts := by
  unfold bump_hint_stats
  split <;> rfl

/-- Bumping statistics never touches the id counter. -/
theorem bump_hint_stats_nextId (st : DbState) (language cluster_key : String)
    (hint_level : Int) (hint_variant : String) (e i : Int) (dl : ℚ) :
    (bump_hint_stats st language cluster_key hint_level hint_variant e i dl).nextId =
      st.nextId := by
  unfold bump_hint_stats
  split <;> rfl

/-- The max-by-id fold of `get_last_attempt_for_context` yields the
accumulator or a list element. -/
theorem foldMaxId_mem :
    ∀ (l : List AttemptRow) (acc : Option AttemptRow) (r : AttemptRow),
      l.foldl (fun acc x =>
        match acc with
        | none => some x
        | some a => if x.id > a.id then some x else some a) acc = some r →
      acc = some r ∨ r ∈ l := by
  intro l
  induction l with
  | nil => intro acc r h; exact Or.inl h
  | cons x xs ih =>
      intro acc r h
      rw [List.foldl_cons] at h
      rcases ih _ r h with hacc | hmem
      · rcases acc with _ | a
        · cases hacc
          exact Or.inr (List.mem_cons_self x xs)
        · dsimp only at hacc
          by_cases hgt : x.id > a.id
          · rw [if_pos hgt] at hacc
            cases hacc
            exact Or.inr (List.mem_cons_self x xs)
          · rw [if_neg hgt] at hacc
            exact Or.inl hacc
      · exact Or.inr (List.mem_cons_of_mem x hmem)

/-- A previous attempt returned by the context lookup is a stored row. -/
theorem get_last_mem {st : DbState} {sid lang : String} {q qi qs : Int} {r : AttemptRow}
    (h : get_last_attempt_for_context st sid lang q qi qs = some r) : r ∈ st.attempts := by
  unfold get_last_attempt_for_context at h
  rcases foldMaxId_mem _ none r h with hacc | hmem
  · cases hacc
  · exact List.mem_of_mem_filter hmem

/-- C9 (amended): in every handled training-mode request for the supported
language, the trace of persistence calls ends with the exposure bump for
the selected (language, cluster, level, variant) immediately followed by
the insertion of the new attempt — the exposure statistic is bumped
*before* the attempt row is persisted, and the inserted row records the
same cluster, level and variant as the bump. -/
theorem exposure_bump_precedes_insert (catalog : Catalog) (hashFn : String → String)
    (st : DbState) (req : HintRequest) (d : Draws)
    (hmode : req.mode = "training")
    (hlang : lowerStr (if req.language = "" then "c" else req.language) = "c") :
    ∃ pre ck lvl var row,
      (handleHint catalog hashFn st req d).2.2 =
        pre ++ [DbEvent.bumpStats "c" ck lvl var 1 0 0, DbEvent.insertAttempt row] ∧
      row.cluster_key = ck ∧ row.hint_level = some lvl ∧ row.hint_variant = some var := by
  have hnot : ¬(req.mode ≠ "training") := fun h => h hmode
  simp only [handleHint]
  rw [if_neg hnot]
  simp only [hlang]
  rw [if_neg (by simp)]
  exact ⟨_, _, _, _, _, rfl, rfl, rfl, rfl⟩

/-- A plain training-mode request used by the C9 theorems. -/
def plainReq : HintRequest := { coderunner := { score := 0, max_score := 10 } }

/-- The empty store. -/
def emptyDb : DbState := { attempts := [], nextId := 1, stats := [] }

/-- Draws that stay in the exploitation branch. -/
def noExploreDraws : Draws := { explore_draw := 1/2, explore_choice := 0, unseen_choice := 0 }

/-- C9 witness: the amended ordering at a concrete request, where the trace
is the lookup, the exposure bump, then the insert. -/
theorem exposure_bump_precedes_insert_witness :
    plainReq.mode = "training" ∧
    lowerStr (if plainReq.language = "" then "c" else plainReq.language) = "c" ∧
    (∃ pre ck lvl var row,
      (handleHint [] (fun _ => "") emptyDb plainReq noExploreDraws).2.2 =
        pre ++ [DbEvent.bumpStats "c" ck lvl var 1 0 0, DbEvent.insertAttempt row] ∧
      row.cluster_key = ck ∧ row.hint_level = some lvl ∧ row.hint_variant = some var) := by
  exact ⟨rfl, by decide,
    exposure_bump_precedes_insert [] (fun _ => "") emptyDb plainReq noExploreDraws rfl (by decide)⟩

/-- Is this event an attempt insertion? -/
def isInsertEvt : DbEvent → Bool
  | .insertAttempt _ => true
  | _ => false

/-- Is this event an improvement-recording call? -/
def isUpdateEvt : DbEvent → Bool
  | .updateImprovement _ _ _ => true
  | _ => false

/-- Is this event a statistics bump that counts an exposure? -/
def isExposureBumpEvt : DbEvent → Bool
  | .bumpStats _ _ _ _ e _ _ => e > 0
  | _ => false

/-- The indices of a trace's events satisfying a predicate. -/
def idxsWhere (p : DbEvent → Bool) (tr : List DbEvent) : List Nat :=
  (List.range tr.length).filter (fun i =>
    match tr.get? i with
    | some e => p e
    | none => false)

/-- C9 counterexample: at a concrete handled request both an insert and an
exposure bump occur, but no insert index precedes an exposure-bump index —
the code bumps the exposure statistic first and persists the attempt
afterwards, against the claimed order. -/
theorem insert_before_bump_counterexample :
    idxsWhere isInsertEvt (handleHint [] (fun _ => "") emptyDb plainReq noExploreDraws).2.2 ≠ [] ∧
    idxsWhere isExposureBumpEvt
      (handleHint [] (fun _ => "") emptyDb plainReq noExploreDraws).2.2 ≠ [] ∧
    ¬ ∃ i ∈ idxsWhere isInsertEvt (handleHint [] (fun _ => "") emptyDb plainReq noExploreDraws).2.2,
      ∃ j ∈ idxsWhere isExposureBumpEvt
        (handleHint [] (fun _ => "") emptyDb plainReq noExploreDraws).2.2, i < j := by
  refine ⟨by decide, by decide, by decide⟩

/-- The attempt log of the updated store, in map form. -/
theorem update_attempt_improvement_attempts (st : DbState) (i : Nat) (b : Bool) (dl : ℚ) :
    (update_attempt_improvement st i b dl).attempts = st.attempts.map (fun r =>
      if r.id = i then
        { r with improved_vs_previous := some b, delta_score := some dl }
      else r) := rfl

/-- C2 (amended): in a handled training-mode request whose previous attempt
carries a truthy hint variant and level, the recorded improvement flag is
`delta > 1e-9` for `delta = current score − previous score` — a strict
positivity test with a `1e-9` tolerance, not `delta > 0` — written to the
previous row, reported in the response's learning payload; equal scores
yield `improved = false` and `delta = 0`. -/
theorem feedback_improved_uses_tolerance (catalog : Catalog) (hashFn : String → String)
    (st : DbState) (req : HintRequest) (d : Draws) (prev : AttemptRow)
    (hmode : req.mode = "training")
    (hlang : lowerStr (if req.language = "" then "c" else req.language) = "c")
    (hprev : get_last_attempt_for_context st req.student_id "c" req.quiz_id req.question_id
      req.question_slot = some prev)
    (hvar : strTruthy prev.hint_variant = true)
    (hlvl : intTruthy prev.hint_level = true)
    (hwf : ∀ r ∈ st.attempts, r.id < st.nextId) :
    DbEvent.updateImprovement prev.id
      (decide (req.coderunner.score - floatOr prev.score 0 > improveTol))
      (req.coderunner.score - floatOr prev.score 0) ∈ (handleHint catalog hashFn st req d).2.2 ∧
    (handleHint catalog hashFn st req d).1.learning =
      some (decide (req.coderunner.score - floatOr prev.score 0 > improveTol),
        roundTo 4 (req.coderunner.score - floatOr prev.score 0)) ∧
    (∀ r ∈ (handleHint catalog hashFn st req d).2.1.attempts, r.id = prev.id →
      r.improved_vs_previous =
        some (decide (req.coderunner.score - floatOr prev.score 0 > improveTol)) ∧
      r.delta_score = some (req.coderunner.score - floatOr prev.score 0)) ∧
    (req.coderunner.score = floatOr prev.score 0 →
      decide (req.coderunner.score - floatOr prev.score 0 > improveTol) = false ∧
      req.coderunner.score - floatOr prev.score 0 = 0) := by
  have hnot : ¬(req.mode ≠ "training") := fun h => h hmode
  have hcond : strTruthy prev.hint_variant = true ∧ intTruthy prev.hint_level = true :=
    ⟨hvar, hlvl⟩
  have hprevmem : prev ∈ st.attempts := get_last_mem hprev
  simp only [handleHint]
  rw [if_neg hnot]
  simp only [hlang]
  rw [if_neg (by simp)]
  simp only [hprev, feedbackStep]
  rw [if_pos hcond]
  dsimp only
  refine ⟨by simp, rfl, ?_, ?_⟩
  · intro r hr hid
    simp only [insert_attempt, bump_hint_stats_attempts,
      update_attempt_improvement_attempts] at hr
    rcases List.mem_append.mp hr with hmem | hnew
    · obtain ⟨orig, horig, hfn⟩ := List.mem_map.mp hmem
      by_cases horigid : orig.id = prev.id
      · rw [← hfn, if_pos horigid]
        exact ⟨rfl, rfl⟩
      · rw [← hfn, if_neg horigid] at hid
        exact absurd hid horigid
    · rcases List.mem_cons.mp hnew with hnew | hnil
      · have hidval : r.id = st.nextId := by
          rw [hnew]
          simp only [bump_hint_stats_nextId]
          rfl
        have hlt : prev.id < st.nextId := hwf prev hprevmem
        rw [hid] at hidval
        exact absurd hidval (Nat.ne_of_lt hlt)
      · cases hnil
  · intro he
    rw [he, sub_self]
    exact ⟨by decide, rfl⟩

/-- The previous attempt of the C2 counterexample: score 0 of 10, a level-1
`default` hint already delivered. -/
def tinyPrev : AttemptRow :=
  { id := 0, mode := "training", language := "c", course_id := 0, quiz_id := 0,
    question_id := 0, question_slot := 0, question_name := "", student_id := "anon",
    attempt_id := 0, attempt_no := 0, source_code := "", source_hash := "",
    score := some 0, max_score := some 10, compile_error_text := "",
    runtime_error_text := "", failed_tests_json := [], full_feedback_text := "",
    cluster_key := "c_logic_generic_failed_tests", hint_level := some 1,
    hint_type := "logic_generic", hint_variant := some "default", hint_text := "x",
    confidence := 0.45, improved_vs_previous := none, delta_score := none }

/-- Store holding only `tinyPrev`. -/
def tinyDb : DbState := { attempts := [tinyPrev], nextId := 1, stats := [] }

/-- Second request in `tinyPrev`'s context with current score `10⁻¹⁰`. -/
def tinyReq : HintRequest := { coderunner := { score := 1/10000000000, max_score := 10 } }

/-- C2 counterexample: with previous score 0 and current score `10⁻¹⁰` the
delta is strictly positive, yet the one improvement-recording call carries
`improved = false` — the code tests `delta > 1e-9`, so "improved iff
delta > 0 strictly" fails on the code. -/
theorem feedback_strict_sign_counterexample :
    ((handleHint [] (fun _ => "") tinyDb tinyReq noExploreDraws).2.2.filter
        (fun e => isUpdateEvt e)) =
      [DbEvent.updateImprovement 0 false (1/10000000000)] ∧
    (0 : ℚ) < 1/10000000000 := by
  exact ⟨by decide, by decide⟩

/-- C2 witness: the amended theorem applied at `tinyDb`/`tinyReq`, where the
tolerance keeps `improved` false for the positive delta `10⁻¹⁰`. -/
theorem feedback_improved_uses_tolerance_witness :
    DbEvent.updateImprovement 0 (decide ((1 : ℚ)/10000000000 - 0 > improveTol))
        ((1 : ℚ)/10000000000 - 0) ∈
      (handleHint [] (fun _ => "") tinyDb tinyReq noExploreDraws).2.2 ∧
    decide ((1 : ℚ)/10000000000 - 0 > improveTol) = false := by
  have h := feedback_improved_uses_tolerance [] (fun _ => "") tinyDb tinyReq noExploreDraws
    tinyPrev rfl (by decide) (by decide) (by decide) (by decide) (by decide)
  exact ⟨h.1, by decide⟩

end CodeRunnerHint
